import Mathlib

/-!
Verification development for the webscadaserver repository (src/app.py).

The embedding models the two core components of the source:

* `build_entity` (app.py lines 84-106): the key deriver, mapping an inbound
  reading (a JSON mapping) and the ingestion instant (taken from the wall
  clock in the source via `datetime.utcnow()`; passed explicitly here, which
  is the contract form `derive(reading, now)` the specification uses) to a
  flat string entity with reserved fields PartitionKey, RowKey, TimestampIST.
* `fetch_records` (app.py lines 146-181): the range reader, scanning the
  fixed partition, parsing each stored TimestampIST with the fixed format
  "%Y-%m-%d %H:%M:%S", filtering by inclusive bounds and projecting report
  rows.
* `ingest` (app.py lines 112-131): the orchestrator, modelled as the effect
  trace it performs on the external store and the in-memory latest cache.

Python dictionaries are modelled as association lists with unique keys kept
in insertion order; dictionary assignment replaces the value of an existing
key in place and appends a fresh key at the end, exactly as CPython does.
-/

set_option autoImplicit false

namespace WebScada

/-! ## Naive datetimes

The source manipulates naive `datetime` values (year, month, day, hour,
minute, second, microsecond).  `pytz.timezone("Asia/Kolkata")` applied to a
modern UTC instant is the fixed offset UTC+5:30, so the conversion performed
by `astimezone` on line 89 is addition of 330 minutes with calendar carry.
-/

structure DT where
  year : Nat
  month : Nat
  day : Nat
  hour : Nat
  minute : Nat
  second : Nat
  usec : Nat
  deriving DecidableEq, Repr

/-- Boolean Gregorian leap-year test, as implemented by the calendar the
Python datetime module uses. -/
def isLeap (y : Nat) : Bool :=
  y % 4 == 0 && (y % 100 != 0 || y % 400 == 0)

/-- Length of month m in year y (months numbered 1..12). -/
def daysInMonth (y m : Nat) : Nat :=
  if m = 2 then (if isLeap y then 29 else 28)
  else if m = 4 ∨ m = 6 ∨ m = 9 ∨ m = 11 then 30
  else 31

/-- A datetime that the Python datetime constructor would accept (restricted
to the proleptic Gregorian fields used here; `datetime.utcnow()` always
returns such a value). -/
def ValidDT (t : DT) : Prop :=
  1 ≤ t.year ∧ 1 ≤ t.month ∧ t.month ≤ 12 ∧ 1 ≤ t.day ∧
    t.day ≤ daysInMonth t.year t.month ∧ t.hour < 24 ∧ t.minute < 60 ∧
    t.second < 60 ∧ t.usec < 1000000

instance (t : DT) : Decidable (ValidDT t) := by
  unfold ValidDT; infer_instance

/-- Days in year y strictly before the first day of month m (months
numbered 1..12). -/
def daysBeforeMonth (y m : Nat) : Nat :=
  let L : Nat := if isLeap y then 1 else 0
  match m with
  | 1 => 0
  | 2 => 31
  | 3 => 59 + L
  | 4 => 90 + L
  | 5 => 120 + L
  | 6 => 151 + L
  | 7 => 181 + L
  | 8 => 212 + L
  | 9 => 243 + L
  | 10 => 273 + L
  | 11 => 304 + L
  | 12 => 334 + L
  | _ => 0

/-- Days strictly before January 1 of year y, counted from year 1 of the
proleptic Gregorian calendar. -/
def daysBeforeYear (y : Nat) : Nat :=
  365 * (y - 1) + (y - 1) / 4 + (y - 1) / 400 - (y - 1) / 100

/-- Absolute minute index of a datetime on the proleptic Gregorian
timeline; two valid datetimes compare like Python datetimes at minute
granularity through this index. -/
def toMinutes (t : DT) : Nat :=
  (daysBeforeYear t.year + daysBeforeMonth t.year t.month + (t.day - 1)) * 1440
    + t.hour * 60 + t.minute

/-- Embedding of line 89 of the source:
`datetime.utcnow().replace(tzinfo=pytz.utc).astimezone(ist)` with
ist = Asia/Kolkata, which for every instant the server can observe is the
fixed offset UTC+5:30, i.e. addition of 330 minutes with calendar carry.
Seconds and microseconds are unchanged by the offset. -/
def toIST (t : DT) : DT :=
  let mi := t.minute + 30
  let h := t.hour + 5 + mi / 60
  let mi := mi % 60
  if h < 24 then
    { t with hour := h, minute := mi }
  else
    let h := h - 24
    if t.day < daysInMonth t.year t.month then
      { t with day := t.day + 1, hour := h, minute := mi }
    else if t.month < 12 then
      { t with month := t.month + 1, day := 1, hour := h, minute := mi }
    else
      { t with year := t.year + 1, month := 1, day := 1, hour := h, minute := mi }

/-- Decimal digits of a natural number, zero-padded on the left to width w,
as strftime does for %m, %d, %H, %M, %S (w = 2), %Y (w = 4) and %f (w = 6). -/
def padNum (w n : Nat) : String :=
  let s := toString n
  String.mk (List.replicate (w - s.length) '0') ++ s

/-- Embedding of line 92 of the source:
`ist_time.strftime("%Y%m%d%H%M%S%f")`. -/
def fmtRowKey (t : DT) : String :=
  padNum 4 t.year ++ padNum 2 t.month ++ padNum 2 t.day ++ padNum 2 t.hour
    ++ padNum 2 t.minute ++ padNum 2 t.second ++ padNum 6 t.usec

/-- Embedding of line 94 of the source:
`ist_time.strftime("%Y-%m-%d %H:%M:%S")`. -/
def fmtTS (t : DT) : String :=
  padNum 4 t.year ++ "-" ++ padNum 2 t.month ++ "-" ++ padNum 2 t.day ++ " "
    ++ padNum 2 t.hour ++ ":" ++ padNum 2 t.minute ++ ":" ++ padNum 2 t.second

/-- Numeric value of a decimal digit character. -/
def digitVal (c : Char) : Nat := c.toNat - 48

/-- Embedding of `datetime.strptime(s, "%Y-%m-%d %H:%M:%S")` on the
canonical zero-padded strings the system itself produces: nineteen
characters, digits in the numeric positions, literal separators, and the
field-range validation the datetime constructor performs (including day
versus month length and leap years).  Returns none exactly when strptime
raises. -/
def parseDT (s : String) : Option DT :=
  match s.toList with
  | [y1, y2, y3, y4, '-', m1, m2, '-', d1, d2, ' ',
     h1, h2, ':', mi1, mi2, ':', s1, s2] =>
    if (y1.isDigit && y2.isDigit && y3.isDigit && y4.isDigit &&
        m1.isDigit && m2.isDigit && d1.isDigit && d2.isDigit &&
        h1.isDigit && h2.isDigit && mi1.isDigit && mi2.isDigit &&
        s1.isDigit && s2.isDigit) then
      let y := ((digitVal y1 * 10 + digitVal y2) * 10 + digitVal y3) * 10 + digitVal y4
      let mo := digitVal m1 * 10 + digitVal m2
      let d := digitVal d1 * 10 + digitVal d2
      let h := digitVal h1 * 10 + digitVal h2
      let mi := digitVal mi1 * 10 + digitVal mi2
      let se := digitVal s1 * 10 + digitVal s2
      if 1 ≤ y ∧ 1 ≤ mo ∧ mo ≤ 12 ∧ 1 ≤ d ∧ d ≤ daysInMonth y mo ∧
          h < 24 ∧ mi < 60 ∧ se < 60 then
        some ⟨y, mo, d, h, mi, se, 0⟩
      else none
    else none
  | _ => none

/-- Python datetime comparison (used on line 169 of the source); for the
valid datetimes strptime produces, field-lexicographic order coincides with
order of the flattened index. -/
def dtKey (t : DT) : Nat :=
  ((((t.year * 13 + t.month) * 32 + t.day) * 24 + t.hour) * 60 + t.minute) * 60
    + t.second

def dtLe (a b : DT) : Prop := dtKey a ≤ dtKey b

instance (a b : DT) : Decidable (dtLe a b) := by
  unfold dtLe; infer_instance

/-! ## Python values and dictionaries -/

/-- JSON-decodable Python values as `request.get_json()` produces them
(floats are not needed by any claim and are omitted). -/
inductive Value where
  | str (s : String)
  | int (n : Int)
  | bool (b : Bool)
  | null
  | list (xs : List Value)
  | dict (kvs : List (String × Value))

mutual

/-- Embedding of Python `str(v)` as applied on lines 86 and 104 of the
source: the identity on strings, the textual representation otherwise
(string escaping inside nested containers is not modelled; no claim
depends on it). -/
def pyStr : Value → String
  | .str s => s
  | .int n => toString n
  | .bool b => if b then "True" else "False"
  | .null => "None"
  | .list xs => "[" ++ pyReprList xs ++ "]"
  | .dict kvs => "\x7b" ++ pyReprDict kvs ++ "\x7d"

/-- Python `repr(v)`, used by str on the elements of containers; \x27 is
the single-quote character. -/
def pyRepr : Value → String
  | .str s => "\x27" ++ s ++ "\x27"
  | .int n => toString n
  | .bool b => if b then "True" else "False"
  | .null => "None"
  | .list xs => "[" ++ pyReprList xs ++ "]"
  | .dict kvs => "\x7b" ++ pyReprDict kvs ++ "\x7d"

def pyReprList : List Value → String
  | [] => ""
  | [x] => pyRepr x
  | x :: y :: xs => pyRepr x ++ ", " ++ pyReprList (y :: xs)

def pyReprDict : List (String × Value) → String
  | [] => ""
  | [(k, v)] => pyRepr (.str k) ++ ": " ++ pyRepr v
  | (k, v) :: p :: xs => pyRepr (.str k) ++ ": " ++ pyRepr v ++ ", " ++ pyReprDict (p :: xs)

end

/-- First-match lookup in an association list: for lists with unique keys
this is Python dictionary access `d[k]` / `d.get(k)`. -/
def aget {α : Type} : List (String × α) → String → Option α
  | [], _ => none
  | p :: rest, k => if p.1 = k then some p.2 else aget rest k

/-- Python `d.get(k, dflt)`. -/
def pyGetD {α : Type} (l : List (String × α)) (k : String) (dflt : α) : α :=
  (aget l k).getD dflt

/-- Python dictionary assignment `d[k] = v` on a unique-key list: replaces
the value at the key's existing position, appends a fresh key at the end. -/
def dictSet {α : Type} : List (String × α) → String → α → List (String × α)
  | [], k, v => [(k, v)]
  | p :: rest, k, v =>
    if p.1 = k then (k, v) :: rest else p :: dictSet rest k v

/-- Keys of an association list are pairwise distinct (a Python dict
invariant, holding for every mapping `request.get_json()` can return). -/
def keysNodup {α : Type} (l : List (String × α)) : Prop :=
  (l.map Prod.fst).Nodup

instance {α : Type} (l : List (String × α)) : Decidable (keysNodup l) := by
  unfold keysNodup; infer_instance

/-! ## The key deriver, build_entity (app.py lines 84-106) -/

/-- Embedding of build_entity.  `data` is the decoded JSON mapping in
insertion order; `now` is the UTC instant the source reads from
`datetime.utcnow()` on line 89, passed explicitly. -/
def build_entity (data : List (String × Value)) (now : DT) :
    List (String × String) :=
  let deviceid := pyStr (pyGetD data "deviceid" (.str "susanad"))
  let ist_time := toIST now
  let rowkey := fmtRowKey ist_time
  let ts := fmtTS ist_time
  let entity := [("PartitionKey", deviceid), ("RowKey", rowkey),
                 ("TimestampIST", ts)]
  data.foldl
    (fun ent kv => if kv.1 ≠ "deviceid" then dictSet ent kv.1 (pyStr kv.2) else ent)
    entity

/-- The per-field step of the loop on lines 102-104 of the source, named
for reasoning about the fold inside build_entity. -/
def entStep (ent : List (String × String)) (kv : String × Value) :
    List (String × String) :=
  if kv.1 ≠ "deviceid" then dictSet ent kv.1 (pyStr kv.2) else ent

/-! ## The range reader, fetch_records (app.py lines 146-181) -/

/-- A stored entity as the partition scan returns it: a flat mapping from
field names to string values. -/
def Ent : Type := List (String × String)

/-- One projected report row (lines 171-179 of the source): the Timestamp
string plus the six prefix-resolved measurement fields, each None when the
entity lacks the field. -/
structure Row where
  Timestamp : String
  MassFlow : Option String
  Masstotal : Option String
  VolumeFlow : Option String
  Volumetotal : Option String
  Density : Option String
  Temp : Option String
  deriving DecidableEq, Repr

/-- How fetch_records can fail: an unparseable start/end argument, or an
unparseable TimestampIST on a scanned record (the DataIntegrityError of the
specification).  In the source both are the ValueError that strptime
raises, uncaught; the constructor records which strptime call raised. -/
inductive FetchError where
  | badQueryTime (s : String)
  | dataIntegrity (s : String)
  deriving DecidableEq, Repr

/-- Projection of one in-range entity into a report row (lines 171-179). -/
def projectRow (prefix_ : String) (e : Ent) (ts : String) : Row :=
  { Timestamp := ts
    MassFlow := aget e (prefix_ ++ "MassFlow")
    Masstotal := aget e (prefix_ ++ "Masstotal")
    VolumeFlow := aget e (prefix_ ++ "VolumeFlow")
    Volumetotal := aget e (prefix_ ++ "Volumetotal")
    Density := aget e (prefix_ ++ "Density")
    Temp := aget e (prefix_ ++ "Temp") }

/-- The scan loop of fetch_records (lines 160-179): skip entities whose
TimestampIST is absent or empty (Python `if not ts: continue`), abort on
the first unparseable timestamp (strptime raises out of the loop, so rows
already collected are discarded), and append the projected row of every
entity whose parsed timestamp lies in the inclusive range. -/
def processEntities (prefix_ : String) (start_dt end_dt : DT) :
    List Ent → Except FetchError (List Row)
  | [] => .ok []
  | e :: rest =>
    match aget e "TimestampIST" with
    | none => processEntities prefix_ start_dt end_dt rest
    | some ts =>
      if ts = "" then processEntities prefix_ start_dt end_dt rest
      else
        match parseDT ts with
        | none => .error (.dataIntegrity ts)
        | some ts_dt =>
          if dtLe start_dt ts_dt ∧ dtLe ts_dt end_dt then
            (processEntities prefix_ start_dt end_dt rest).map
              (fun rows => projectRow prefix_ e ts :: rows)
          else processEntities prefix_ start_dt end_dt rest

/-- Embedding of fetch_records.  The partition scan is external; its result
is the `entities` argument.  start and end are parsed with the fixed format
before the loop (lines 157-158); strptime failure there raises out of the
function as well. -/
def fetch_records (prefix_ start_ end_ : String) (entities : List Ent) :
    Except FetchError (List Row) :=
  match parseDT start_ with
  | none => .error (.badQueryTime start_)
  | some start_dt =>
    match parseDT end_ with
    | none => .error (.badQueryTime end_)
    | some end_dt => processEntities prefix_ start_dt end_dt entities

/-! ## The ingest orchestrator (app.py lines 112-131)

The route body is modelled two ways, both translated from lines 112-131:

* `ingestTrace` is the sequence of externally visible effects the handler
  performs (the store upsert on line 123 and the cache assignment on line
  126), with the outcome of the external store write supplied as a
  parameter.  When the write raises, the `except` on line 128 returns
  before the cache assignment, so no cache effect is emitted.
* `ingestStatus` is the HTTP status code the handler returns: 400 from the
  `is_json` guard, 500 from the generic exception handler (which also
  catches the AttributeError that `data.get` raises on line 86 when the
  decoded JSON body is not a mapping), 200 otherwise.
-/

inductive Effect where
  | storeWrite (pk rk : String) (ent : Ent) (ok : Bool)
  | cacheSet (pk : String) (ent : Ent)

/-- build_entity as called from ingest: on a mapping it builds the entity;
on any other decoded JSON value, `data.get` on line 86 raises an
AttributeError. -/
def build_entity_checked (data : Value) (now : DT) : Except String Ent :=
  match data with
  | .dict kvs => .ok (build_entity kvs now)
  | _ => .error "AttributeError"

/-- Effect trace of one ingest request whose body decoded to `data`.
`writeOk` is whether the external `upsert_entity` call succeeds. -/
def ingestTrace (data : Value) (now : DT) (writeOk : Bool) : List Effect :=
  match build_entity_checked data now with
  | .error _ => []
  | .ok entity =>
    let pk := (aget entity "PartitionKey").getD ""
    let rk := (aget entity "RowKey").getD ""
    if writeOk then
      [.storeWrite pk rk entity true, .cacheSet pk entity]
    else
      [.storeWrite pk rk entity false]

/-- The latest cache (app.py line 31) after applying an effect trace:
only cacheSet effects touch it, by Python dictionary assignment. -/
def applyCache (cache : List (String × Ent)) : List Effect →
    List (String × Ent)
  | [] => cache
  | .storeWrite _ _ _ _ :: rest => applyCache cache rest
  | .cacheSet pk ent :: rest => applyCache (dictSet cache pk ent) rest

/-- HTTP status code returned by the ingest handler.  `body` is none when
the request is not JSON (the line 115 guard), otherwise the decoded value. -/
def ingestStatus (body : Option Value) (now : DT) (writeOk : Bool) : Nat :=
  match body with
  | none => 400
  | some data =>
    match build_entity_checked data now with
    | .error _ => 500
    | .ok _ => if writeOk then 200 else 500

/-! ## Association-list lemmas -/

theorem aget_dictSet_self {α : Type} (l : List (String × α)) (k : String) (v : α) :
    aget (dictSet l k v) k = some v := by
  induction l with
  | nil => simp [dictSet, aget]
  | cons p rest ih =>
    by_cases h : p.1 = k
    · simp [dictSet, aget, h]
    · simp [dictSet, aget, h, ih]

theorem aget_dictSet_ne {α : Type} (l : List (String × α)) (k k' : String) (v : α)
    (h : k' ≠ k) : aget (dictSet l k v) k' = aget l k' := by
  induction l with
  | nil => simp [dictSet, aget, Ne.symm h]
  | cons p rest ih =>
    by_cases hp : p.1 = k
    · subst hp
      simp [dictSet, aget, Ne.symm h, h]
    · by_cases hp' : p.1 = k'
      · simp [dictSet, aget, hp, hp', h]
      · simp [dictSet, aget, hp, hp', ih]

theorem build_entity_eq_foldl (data : List (String × Value)) (now : DT) :
    build_entity data now =
      data.foldl entStep
        [("PartitionKey", pyStr (pyGetD data "deviceid" (.str "susanad"))),
         ("RowKey", fmtRowKey (toIST now)), ("TimestampIST", fmtTS (toIST now))] :=
  rfl

theorem foldl_entStep_not_mem (data : List (String × Value))
    (ent : List (String × String)) (k : String)
    (h : k ∉ data.map Prod.fst) :
    aget (data.foldl entStep ent) k = aget ent k := by
  induction data generalizing ent with
  | nil => rfl
  | cons kv rest ih =>
    simp only [List.map_cons, List.mem_cons] at h
    push_neg at h
    simp only [List.foldl_cons]
    rw [ih _ h.2]
    unfold entStep
    split
    · exact aget_dictSet_ne _ _ _ _ h.1
    · rfl

theorem foldl_entStep_mem (data : List (String × Value))
    (ent : List (String × String)) (k : String) (v : Value)
    (hnd : keysNodup data) (hmem : (k, v) ∈ data) (hk : k ≠ "deviceid") :
    aget (data.foldl entStep ent) k = some (pyStr v) := by
  induction data generalizing ent with
  | nil => cases hmem
  | cons kv rest ih =>
    simp only [keysNodup, List.map_cons, List.nodup_cons] at hnd
    rcases List.mem_cons.mp hmem with hhead | htail
    · subst hhead
      simp only [List.foldl_cons]
      rw [foldl_entStep_not_mem rest _ k hnd.1]
      have hstep : entStep ent (k, v) = dictSet ent k (pyStr v) := by
        simp [entStep, hk]
      rw [hstep]
      exact aget_dictSet_self _ _ _
    · simp only [List.foldl_cons]
      exact ih _ hnd.2 htail

/-- Every payload field except the device identifier lands in the entity,
stringified, under its own name — including the reserved names, which the
loop on lines 102-104 overwrites. -/
theorem build_entity_payload (data : List (String × Value)) (now : DT)
    (k : String) (v : Value) (hnd : keysNodup data) (hmem : (k, v) ∈ data)
    (hk : k ≠ "deviceid") :
    aget (build_entity data now) k = some (pyStr v) := by
  rw [build_entity_eq_foldl]
  exact foldl_entStep_mem data _ k v hnd hmem hk

/-- A reserved field not named by any payload key keeps its derived value. -/
theorem build_entity_reserved (data : List (String × Value)) (now : DT)
    (k : String) (hk : k ∉ data.map Prod.fst) :
    aget (build_entity data now) k =
      aget [("PartitionKey", pyStr (pyGetD data "deviceid" (.str "susanad"))),
            ("RowKey", fmtRowKey (toIST now)), ("TimestampIST", fmtTS (toIST now))] k := by
  rw [build_entity_eq_foldl]
  exact foldl_entStep_not_mem data _ k hk

/-! ## Calendar lemmas for the UTC+5:30 conversion -/

theorem daysBeforeMonth_succ (y m : Nat) (h1 : 1 ≤ m) (h2 : m ≤ 11) :
    daysBeforeMonth y (m + 1) = daysBeforeMonth y m + daysInMonth y m := by
  interval_cases m <;> cases hL : isLeap y <;>
    simp [daysBeforeMonth, daysInMonth, hL]

set_option maxHeartbeats 1000000 in
theorem daysBeforeYear_succ (y : Nat) (h : 1 ≤ y) :
    daysBeforeYear (y + 1) = daysBeforeYear y + 365 + (if isLeap y then 1 else 0) := by
  unfold daysBeforeYear
  have hL : isLeap y = true ↔ (y % 4 = 0 ∧ (y % 100 ≠ 0 ∨ y % 400 = 0)) := by
    rw [isLeap, Bool.and_eq_true, beq_iff_eq, Bool.or_eq_true, bne_iff_ne,
      beq_iff_eq]
  split
  case isTrue hLT =>
    rw [hL] at hLT
    omega
  case isFalse hLF =>
    rw [hL] at hLF
    push_neg at hLF
    omega

/-- The conversion on line 89 of the source advances the timeline by
exactly 330 minutes (= 5 hours 30 minutes) and leaves the second and
microsecond fields unchanged, on every valid datetime. -/
theorem toIST_spec (t : DT) (h : ValidDT t) :
    toMinutes (toIST t) = toMinutes t + 330 ∧
      (toIST t).second = t.second ∧ (toIST t).usec = t.usec := by
  obtain ⟨hy, hm1, hm2, hd1, hd2, hh, hmi, _, _⟩ := h
  simp only [toIST]
  split_ifs with hcarry hday hmon
  · refine ⟨?_, rfl, rfl⟩
    unfold toMinutes
    simp only
    omega
  · refine ⟨?_, rfl, rfl⟩
    unfold toMinutes
    simp only
    omega
  · refine ⟨?_, rfl, rfl⟩
    unfold toMinutes
    simp only
    rw [daysBeforeMonth_succ t.year t.month hm1 (by omega)]
    omega
  · refine ⟨?_, rfl, rfl⟩
    have hm12 : t.month = 12 := by omega
    have hdim : daysInMonth t.year 12 = 31 := by simp [daysInMonth]
    have hdbm : daysBeforeMonth t.year 12 = 334 + (if isLeap t.year then 1 else 0) := by
      cases hL : isLeap t.year <;> simp [daysBeforeMonth, hL]
    unfold toMinutes
    simp only
    rw [hm12, daysBeforeYear_succ t.year hy, hdbm]
    simp only [daysBeforeMonth]
    rw [hm12, hdim] at hd2 hday
    split <;> omega

/-! ## Range-reader lemmas -/

theorem processEntities_cons_none (prefix_ : String) (sdt edt : DT) (e : Ent)
    (rest : List Ent) (h : aget e "TimestampIST" = none) :
    processEntities prefix_ sdt edt (e :: rest) =
      processEntities prefix_ sdt edt rest := by
  simp [processEntities, h]

theorem processEntities_cons_empty (prefix_ : String) (sdt edt : DT) (e : Ent)
    (rest : List Ent) (h : aget e "TimestampIST" = some "") :
    processEntities prefix_ sdt edt (e :: rest) =
      processEntities prefix_ sdt edt rest := by
  simp [processEntities, h]

theorem processEntities_cons_bad (prefix_ : String) (sdt edt : DT) (e : Ent)
    (rest : List Ent) (ts : String) (h : aget e "TimestampIST" = some ts)
    (hne : ts ≠ "") (hp : parseDT ts = none) :
    processEntities prefix_ sdt edt (e :: rest) = .error (.dataIntegrity ts) := by
  simp [processEntities, h, hne, hp]

theorem processEntities_cons_in (prefix_ : String) (sdt edt : DT) (e : Ent)
    (rest : List Ent) (ts : String) (t : DT) (h : aget e "TimestampIST" = some ts)
    (hne : ts ≠ "") (hp : parseDT ts = some t) (hr : dtLe sdt t ∧ dtLe t edt) :
    processEntities prefix_ sdt edt (e :: rest) =
      (processEntities prefix_ sdt edt rest).map
        (fun rows => projectRow prefix_ e ts :: rows) := by
  simp [processEntities, h, hne, hp, hr]

theorem processEntities_cons_out (prefix_ : String) (sdt edt : DT) (e : Ent)
    (rest : List Ent) (ts : String) (t : DT) (h : aget e "TimestampIST" = some ts)
    (hne : ts ≠ "") (hp : parseDT ts = some t)
    (hr : ¬(dtLe sdt t ∧ dtLe t edt)) :
    processEntities prefix_ sdt edt (e :: rest) =
      processEntities prefix_ sdt edt rest := by
  simp [processEntities, h, hne, hp, hr]

/-- Every row the scan loop returns carries an in-range, parseable
Timestamp. -/
theorem processEntities_ok_range (prefix_ : String) (sdt edt : DT) :
    ∀ (entities : List Ent) (rows : List Row),
      processEntities prefix_ sdt edt entities = .ok rows →
      ∀ r ∈ rows, ∃ tr, parseDT r.Timestamp = some tr ∧ dtLe sdt tr ∧ dtLe tr edt := by
  intro entities
  induction entities with
  | nil =>
    intro rows hok r hr
    simp only [processEntities] at hok
    cases hok
    cases hr
  | cons e rest ih =>
    intro rows hok r hr
    cases haget : aget e "TimestampIST" with
    | none =>
      rw [processEntities_cons_none prefix_ sdt edt e rest haget] at hok
      exact ih rows hok r hr
    | some ts =>
      by_cases hts : ts = ""
      · subst hts
        rw [processEntities_cons_empty prefix_ sdt edt e rest haget] at hok
        exact ih rows hok r hr
      · cases hparse : parseDT ts with
        | none =>
          rw [processEntities_cons_bad prefix_ sdt edt e rest ts haget hts hparse] at hok
          cases hok
        | some t =>
          by_cases hrange : dtLe sdt t ∧ dtLe t edt
          · rw [processEntities_cons_in prefix_ sdt edt e rest ts t haget hts hparse
              hrange] at hok
            cases hrest : processEntities prefix_ sdt edt rest with
            | error err =>
              rw [hrest] at hok
              simp only [Except.map] at hok
              exact Except.noConfusion hok
            | ok rows0 =>
              rw [hrest] at hok
              simp only [Except.map, Except.ok.injEq] at hok
              subst hok
              rcases List.mem_cons.mp hr with hhead | htail
              · subst hhead
                exact ⟨t, hparse, hrange.1, hrange.2⟩
              · exact ih rows0 hrest r htail
          · rw [processEntities_cons_out prefix_ sdt edt e rest ts t haget hts hparse
              hrange] at hok
            exact ih rows hok r hr

/-- Inclusive-range membership: a scanned entity with a well-formed,
non-empty TimestampIST contributes its projected row to a successful scan
result exactly when its parsed timestamp lies in the inclusive
[start, end] window. -/
theorem processEntities_mem_iff (prefix_ : String) (sdt edt : DT) :
    ∀ (entities : List Ent) (rows : List Row) (e : Ent) (ts : String) (t : DT),
      e ∈ entities → aget e "TimestampIST" = some ts → ts ≠ "" →
      parseDT ts = some t →
      processEntities prefix_ sdt edt entities = .ok rows →
      (projectRow prefix_ e ts ∈ rows ↔ (dtLe sdt t ∧ dtLe t edt)) := by
  intro entities
  induction entities with
  | nil =>
    intro rows e ts t hmem _ _ _ _
    cases hmem
  | cons e0 rest ih =>
    intro rows e ts t hmem hts hne hp hok
    cases haget0 : aget e0 "TimestampIST" with
    | none =>
      rw [processEntities_cons_none prefix_ sdt edt e0 rest haget0] at hok
      rcases List.mem_cons.mp hmem with hhead | htail
      · subst hhead
        rw [hts] at haget0
        cases haget0
      · exact ih rows e ts t htail hts hne hp hok
    | some ts0 =>
      by_cases hts0 : ts0 = ""
      · subst hts0
        rw [processEntities_cons_empty prefix_ sdt edt e0 rest haget0] at hok
        rcases List.mem_cons.mp hmem with hhead | htail
        · subst hhead
          rw [hts] at haget0
          cases haget0
          exact absurd rfl hne
        · exact ih rows e ts t htail hts hne hp hok
      · cases hparse0 : parseDT ts0 with
        | none =>
          rw [processEntities_cons_bad prefix_ sdt edt e0 rest ts0 haget0 hts0
            hparse0] at hok
          cases hok
        | some t0 =>
          by_cases hrange0 : dtLe sdt t0 ∧ dtLe t0 edt
          · rw [processEntities_cons_in prefix_ sdt edt e0 rest ts0 t0 haget0 hts0
              hparse0 hrange0] at hok
            cases hrest : processEntities prefix_ sdt edt rest with
            | error err =>
              rw [hrest] at hok
              simp only [Except.map] at hok
              exact Except.noConfusion hok
            | ok rows0 =>
              rw [hrest] at hok
              simp only [Except.map, Except.ok.injEq] at hok
              subst hok
              rcases List.mem_cons.mp hmem with hhead | htail
              · subst hhead
                rw [hts] at haget0
                cases haget0
                rw [hp] at hparse0
                cases hparse0
                constructor
                · intro _
                  exact hrange0
                · intro _
                  exact List.mem_cons_self _ _
              · have hiff := ih rows0 e ts t htail hts hne hp hrest
                constructor
                · intro hin
                  rcases List.mem_cons.mp hin with hrow | hin0
                  · have htseq : ts = ts0 := congrArg Row.Timestamp hrow
                    subst htseq
                    rw [hp] at hparse0
                    cases hparse0
                    exact hrange0
                  · exact hiff.mp hin0
                · intro hr
                  exact List.mem_cons_of_mem _ (hiff.mpr hr)
          · rw [processEntities_cons_out prefix_ sdt edt e0 rest ts0 t0 haget0 hts0
              hparse0 hrange0] at hok
            rcases List.mem_cons.mp hmem with hhead | htail
            · subst hhead
              rw [hts] at haget0
              cases haget0
              rw [hp] at hparse0
              cases hparse0
              constructor
              · intro hin
                obtain ⟨tr, htr, hr1, hr2⟩ :=
                  processEntities_ok_range prefix_ sdt edt rest rows hok _ hin
                have htr2 : parseDT ts = some tr := htr
                rw [hp] at htr2
                cases htr2
                exact absurd ⟨hr1, hr2⟩ hrange0
              · intro hr
                exact absurd hr hrange0
            · exact ih rows e ts t htail hts hne hp hok

/-- One unparseable, non-empty TimestampIST anywhere in the scan makes the
whole scan fail with a data-integrity error, regardless of the window. -/
theorem processEntities_bad (prefix_ : String) (sdt edt : DT) :
    ∀ (entities : List Ent) (e : Ent) (ts : String),
      e ∈ entities → aget e "TimestampIST" = some ts → ts ≠ "" →
      parseDT ts = none →
      ∃ s, parseDT s = none ∧
        processEntities prefix_ sdt edt entities = .error (.dataIntegrity s) := by
  intro entities
  induction entities with
  | nil =>
    intro e ts hmem _ _ _
    cases hmem
  | cons e0 rest ih =>
    intro e ts hmem hts hne hbad
    cases haget0 : aget e0 "TimestampIST" with
    | none =>
      rcases List.mem_cons.mp hmem with hhead | htail
      · subst hhead
        rw [hts] at haget0
        cases haget0
      · obtain ⟨s, hs, heq⟩ := ih e ts htail hts hne hbad
        rw [processEntities_cons_none prefix_ sdt edt e0 rest haget0]
        exact ⟨s, hs, heq⟩
    | some ts0 =>
      by_cases hts0 : ts0 = ""
      · subst hts0
        rcases List.mem_cons.mp hmem with hhead | htail
        · subst hhead
          rw [hts] at haget0
          cases haget0
          exact absurd rfl hne
        · obtain ⟨s, hs, heq⟩ := ih e ts htail hts hne hbad
          rw [processEntities_cons_empty prefix_ sdt edt e0 rest haget0]
          exact ⟨s, hs, heq⟩
      · cases hparse0 : parseDT ts0 with
        | none =>
          refine ⟨ts0, hparse0, ?_⟩
          exact processEntities_cons_bad prefix_ sdt edt e0 rest ts0 haget0 hts0 hparse0
        | some t0 =>
          rcases List.mem_cons.mp hmem with hhead | htail
          · subst hhead
            rw [hts] at haget0
            cases haget0
            rw [hbad] at hparse0
            cases hparse0
          · obtain ⟨s, hs, heq⟩ := ih e ts htail hts hne hbad
            refine ⟨s, hs, ?_⟩
            by_cases hrange0 : dtLe sdt t0 ∧ dtLe t0 edt
            · rw [processEntities_cons_in prefix_ sdt edt e0 rest ts0 t0 haget0 hts0
                hparse0 hrange0, heq]
              rfl
            · rw [processEntities_cons_out prefix_ sdt edt e0 rest ts0 t0 haget0 hts0
                hparse0 hrange0]
              exact heq

theorem aget_cons {α : Type} (p : String × α) (rest : List (String × α)) (k : String) :
    aget (p :: rest) k = if p.1 = k then some p.2 else aget rest k :=
  rfl

theorem fetch_records_eq (prefix_ start_ end_ : String) (entities : List Ent)
    (sdt edt : DT) (hs : parseDT start_ = some sdt) (he : parseDT end_ = some edt) :
    fetch_records prefix_ start_ end_ entities =
      processEntities prefix_ sdt edt entities := by
  simp [fetch_records, hs, he]

/-! ## Claims -/

/-- Claim C1, counterexample: a reading whose payload contains a field
named RowKey produces a record whose RowKey field equals the payload value,
not the derived row key — the loop on lines 102-104 excludes only deviceid,
so a payload field named like a reserved field overwrites it. -/
theorem C1_counterexample :
    aget (build_entity [("RowKey", Value.str "evil")] ⟨2024, 1, 1, 10, 0, 0, 0⟩)
        "RowKey" = some "evil" ∧
      fmtRowKey (toIST ⟨2024, 1, 1, 10, 0, 0, 0⟩) ≠ "evil" := by
  exact ⟨rfl, by decide⟩

/-- Claim C1 (amended): payload fields win, not reserved fields — every
payload field except deviceid, including one named like a reserved field,
appears in the record with its stringified payload value, overwriting any
derived reserved value of the same name. -/
theorem C1_payload_overwrites_reserved (data : List (String × Value)) (now : DT)
    (k : String) (v : Value) (hnd : keysNodup data) (hmem : (k, v) ∈ data)
    (hk : k ≠ "deviceid") :
    aget (build_entity data now) k = some (pyStr v) :=
  build_entity_payload data now k v hnd hmem hk

theorem C1_witness :
    aget (build_entity [("RowKey", Value.str "evil")] ⟨2024, 1, 1, 10, 0, 0, 0⟩)
      "RowKey" = some (pyStr (Value.str "evil")) :=
  C1_payload_overwrites_reserved _ ⟨2024, 1, 1, 10, 0, 0, 0⟩ "RowKey"
    (Value.str "evil") (by decide) (List.mem_singleton.mpr rfl) (by decide)

/-- Claim C2, counterexample: a reading whose deviceid is the empty string
gets partition key "" — `data.get("deviceid", "susanad")` on line 86 falls
back to the default only when the key is absent, not when it is empty. -/
theorem C2_counterexample :
    aget (build_entity [("deviceid", Value.str "")] ⟨2024, 1, 2, 10, 0, 0, 0⟩)
        "PartitionKey" = some "" ∧
      ("" : String) ≠ "susanad" := by
  exact ⟨rfl, by decide⟩

/-- Claim C2 (amended): the PartitionKey of the derived record equals the
stringified deviceid value whenever the reading contains the deviceid key —
even when its value is the empty string — and equals the default "susanad"
only when the key is absent (stated for readings with no payload field
named PartitionKey, which claim C1 covers). -/
theorem C2_partition_key (data : List (String × Value)) (now : DT)
    (hpk : "PartitionKey" ∉ data.map Prod.fst) :
    aget (build_entity data now) "PartitionKey" =
      some (match aget data "deviceid" with
            | some v => pyStr v
            | none => "susanad") := by
  rw [build_entity_reserved data now "PartitionKey" hpk, aget_cons, if_pos rfl]
  cases hdev : aget data "deviceid" with
  | none => simp [pyGetD, hdev, pyStr]
  | some v => simp [pyGetD, hdev]

theorem C2_witness :
    aget (build_entity [("deviceid", Value.str "")] ⟨2025, 6, 1, 0, 0, 0, 0⟩)
      "PartitionKey" =
      some (match aget [("deviceid", Value.str "")] "deviceid" with
            | some v => pyStr v
            | none => "susanad") :=
  C2_partition_key [("deviceid", Value.str "")] ⟨2025, 6, 1, 0, 0, 0, 0⟩ (by decide)

/-- Claim C3 (confirmed): the key deriver converts the UTC ingestion
instant to the fixed UTC+5:30 local timezone — the local instant is exactly
330 minutes later on the calendar timeline, with seconds and microseconds
unchanged — and produces RowKey as the microsecond-bucketed
YYYYMMDDHHMMSSffffff rendering of that local instant and TimestampIST as
its YYYY-MM-DD HH:MM:SS rendering (stated for readings with no payload
field named RowKey or TimestampIST, which claim C1 covers). -/
theorem C3_timestamp_conversion (data : List (String × Value)) (now : DT)
    (hv : ValidDT now) (hrk : "RowKey" ∉ data.map Prod.fst)
    (hts : "TimestampIST" ∉ data.map Prod.fst) :
    aget (build_entity data now) "RowKey" = some (fmtRowKey (toIST now)) ∧
      aget (build_entity data now) "TimestampIST" = some (fmtTS (toIST now)) ∧
      toMinutes (toIST now) = toMinutes now + 330 ∧
      (toIST now).second = now.second ∧ (toIST now).usec = now.usec := by
  refine ⟨?_, ?_, (toIST_spec now hv).1, (toIST_spec now hv).2.1,
    (toIST_spec now hv).2.2⟩
  · rw [build_entity_reserved data now "RowKey" hrk, aget_cons,
      if_neg (by simp), aget_cons, if_pos rfl]
  · rw [build_entity_reserved data now "TimestampIST" hts, aget_cons,
      if_neg (by simp), aget_cons, if_neg (by simp), aget_cons, if_pos rfl]

theorem C3_witness :
    aget (build_entity [("MassFlow", Value.int 10)] ⟨2024, 12, 31, 23, 59, 59, 123456⟩)
        "RowKey" = some (fmtRowKey (toIST ⟨2024, 12, 31, 23, 59, 59, 123456⟩)) ∧
      aget (build_entity [("MassFlow", Value.int 10)] ⟨2024, 12, 31, 23, 59, 59, 123456⟩)
        "TimestampIST" = some (fmtTS (toIST ⟨2024, 12, 31, 23, 59, 59, 123456⟩)) ∧
      toMinutes (toIST ⟨2024, 12, 31, 23, 59, 59, 123456⟩) =
        toMinutes ⟨2024, 12, 31, 23, 59, 59, 123456⟩ + 330 ∧
      (toIST ⟨2024, 12, 31, 23, 59, 59, 123456⟩).second = 59 ∧
      (toIST ⟨2024, 12, 31, 23, 59, 59, 123456⟩).usec = 123456 :=
  C3_timestamp_conversion [("MassFlow", Value.int 10)]
    ⟨2024, 12, 31, 23, 59, 59, 123456⟩ (by decide) (by decide) (by decide)

/-- Claim C4 (confirmed): every payload field of the reading other than the
device identifier and the reserved names appears in the derived record under
the same name with its value coerced to its Python string form. -/
theorem C4_payload_roundtrip (data : List (String × Value)) (now : DT)
    (k : String) (v : Value) (hnd : keysNodup data) (hmem : (k, v) ∈ data)
    (hdev : k ≠ "deviceid") (hr1 : k ≠ "PartitionKey") (hr2 : k ≠ "RowKey")
    (hr3 : k ≠ "TimestampIST") :
    aget (build_entity data now) k = some (pyStr v) :=
  build_entity_payload data now k v hnd hmem hdev

theorem C4_witness :
    aget (build_entity [("deviceid", Value.str "dev1"), ("MassFlow", Value.int 10)]
        ⟨2024, 1, 1, 10, 0, 0, 0⟩) "MassFlow" = some (pyStr (Value.int 10)) :=
  C4_payload_roundtrip [("deviceid", Value.str "dev1"), ("MassFlow", Value.int 10)]
    ⟨2024, 1, 1, 10, 0, 0, 0⟩ "MassFlow" (Value.int 10) (by decide)
    (List.mem_cons_of_mem _ (List.mem_singleton.mpr rfl)) (by decide) (by decide)
    (by decide) (by decide)

/-- Claim C5 (confirmed): when the scan succeeds, a scanned record with a
well-formed non-empty TimestampIST contributes its projected row to the
result exactly when startLocal <= parsed <= endLocal, both bounds
inclusive; in particular a record at either bound is included and a record
one second outside either bound is excluded. -/
theorem C5_range_inclusive (prefix_ start_ end_ : String) (entities : List Ent)
    (rows : List Row) (sdt edt : DT) (e : Ent) (ts : String) (t : DT)
    (hs : parseDT start_ = some sdt) (he : parseDT end_ = some edt)
    (hmem : e ∈ entities) (hts : aget e "TimestampIST" = some ts) (hne : ts ≠ "")
    (hp : parseDT ts = some t)
    (hok : fetch_records prefix_ start_ end_ entities = .ok rows) :
    projectRow prefix_ e ts ∈ rows ↔ (dtLe sdt t ∧ dtLe t edt) := by
  rw [fetch_records_eq prefix_ start_ end_ entities sdt edt hs he] at hok
  exact processEntities_mem_iff prefix_ sdt edt entities rows e ts t hmem hts hne
    hp hok

theorem C5_witness :
    projectRow "B_" [("TimestampIST", "2024-01-01 09:00:00"), ("B_MassFlow", "10")]
        "2024-01-01 09:00:00" ∈
        [projectRow "B_" [("TimestampIST", "2024-01-01 09:00:00"), ("B_MassFlow", "10")]
          "2024-01-01 09:00:00"] ↔
      (dtLe ⟨2024, 1, 1, 9, 0, 0, 0⟩ ⟨2024, 1, 1, 9, 0, 0, 0⟩ ∧
        dtLe ⟨2024, 1, 1, 9, 0, 0, 0⟩ ⟨2024, 1, 1, 11, 0, 0, 0⟩) :=
  C5_range_inclusive "B_" "2024-01-01 09:00:00" "2024-01-01 11:00:00"
    [[("TimestampIST", "2024-01-01 09:00:00"), ("B_MassFlow", "10")]]
    [projectRow "B_" [("TimestampIST", "2024-01-01 09:00:00"), ("B_MassFlow", "10")]
      "2024-01-01 09:00:00"]
    ⟨2024, 1, 1, 9, 0, 0, 0⟩ ⟨2024, 1, 1, 11, 0, 0, 0⟩
    [("TimestampIST", "2024-01-01 09:00:00"), ("B_MassFlow", "10")]
    "2024-01-01 09:00:00" ⟨2024, 1, 1, 9, 0, 0, 0⟩
    rfl rfl (List.mem_singleton.mpr rfl) rfl (by decide) rfl rfl

/-- Claim C6 (confirmed): a scanned record carrying a non-empty
TimestampIST that does not parse in the fixed format makes fetch_records
fail with a data-integrity error — the whole report aborts with no partial
result, rather than skipping the bad record. -/
theorem C6_data_integrity_abort (prefix_ start_ end_ : String)
    (entities : List Ent) (sdt edt : DT) (e : Ent) (ts : String)
    (hs : parseDT start_ = some sdt) (he : parseDT end_ = some edt)
    (hmem : e ∈ entities) (hts : aget e "TimestampIST" = some ts) (hne : ts ≠ "")
    (hbad : parseDT ts = none) :
    ∃ s, parseDT s = none ∧
      fetch_records prefix_ start_ end_ entities = .error (.dataIntegrity s) := by
  rw [fetch_records_eq prefix_ start_ end_ entities sdt edt hs he]
  exact processEntities_bad prefix_ sdt edt entities e ts hmem hts hne hbad

theorem C6_witness :
    ∃ s, parseDT s = none ∧
      fetch_records "B_" "2024-01-01 09:00:00" "2024-01-01 11:00:00"
          [[("TimestampIST", "2024-01-01 10:00:00")], [("TimestampIST", "oops")]] =
        .error (.dataIntegrity s) :=
  C6_data_integrity_abort "B_" "2024-01-01 09:00:00" "2024-01-01 11:00:00"
    [[("TimestampIST", "2024-01-01 10:00:00")], [("TimestampIST", "oops")]]
    ⟨2024, 1, 1, 9, 0, 0, 0⟩ ⟨2024, 1, 1, 11, 0, 0, 0⟩
    [("TimestampIST", "oops")] "oops"
    rfl rfl (List.mem_cons_of_mem _ (List.mem_singleton.mpr rfl)) rfl
    (by decide) rfl

/-- Claim C7 (confirmed): in every ingest effect trace, any cache update is
preceded by a successful store write of the same entity (write-then-cache,
never cache-before-write); when the store write fails the cache is left
unchanged; and on success the cache entry for the record's partition key is
created or overwritten with the written entity. -/
theorem C7_write_then_cache (data : Value) (now : DT) (writeOk : Bool)
    (cache : List (String × Ent)) :
    (∀ i pk ent, (ingestTrace data now writeOk).get? i = some (.cacheSet pk ent) →
      ∃ j, j < i ∧ ∃ rk,
        (ingestTrace data now writeOk).get? j = some (.storeWrite pk rk ent true))
    ∧ (writeOk = false → applyCache cache (ingestTrace data now writeOk) = cache)
    ∧ (∀ kvs, data = .dict kvs → writeOk = true →
        applyCache cache (ingestTrace data now writeOk) =
          dictSet cache ((aget (build_entity kvs now) "PartitionKey").getD "")
            (build_entity kvs now)) := by
  cases data with
  | dict kvs =>
    cases writeOk with
    | false =>
      refine ⟨?_, ?_, ?_⟩
      · intro i pk ent h
        cases i with
        | zero => simp [ingestTrace, build_entity_checked] at h
        | succ i => simp [ingestTrace, build_entity_checked] at h
      · intro _
        simp [ingestTrace, build_entity_checked, applyCache]
      · intro kvs2 _ hfalse
        cases hfalse
    | true =>
      refine ⟨?_, ?_, ?_⟩
      · intro i pk ent h
        cases i with
        | zero => simp [ingestTrace, build_entity_checked] at h
        | succ i =>
          cases i with
          | zero =>
            simp only [ingestTrace, build_entity_checked, if_pos,
              List.get?] at h
            rw [Option.some.injEq] at h
            cases h
            exact ⟨0, Nat.zero_lt_one, _, rfl⟩
          | succ i => simp [ingestTrace, build_entity_checked] at h
      · intro hfalse
        cases hfalse
      · intro kvs2 hkv _
        cases hkv
        simp [ingestTrace, build_entity_checked, applyCache]
  | str s =>
    refine ⟨?_, ?_, ?_⟩
    · intro i pk ent h
      simp [ingestTrace, build_entity_checked] at h
    · intro _
      simp [ingestTrace, build_entity_checked, applyCache]
    · intro kvs2 hkv _
      cases hkv
  | int n =>
    refine ⟨?_, ?_, ?_⟩
    · intro i pk ent h
      simp [ingestTrace, build_entity_checked] at h
    · intro _
      simp [ingestTrace, build_entity_checked, applyCache]
    · intro kvs2 hkv _
      cases hkv
  | bool b =>
    refine ⟨?_, ?_, ?_⟩
    · intro i pk ent h
      simp [ingestTrace, build_entity_checked] at h
    · intro _
      simp [ingestTrace, build_entity_checked, applyCache]
    · intro kvs2 hkv _
      cases hkv
  | null =>
    refine ⟨?_, ?_, ?_⟩
    · intro i pk ent h
      simp [ingestTrace, build_entity_checked] at h
    · intro _
      simp [ingestTrace, build_entity_checked, applyCache]
    · intro kvs2 hkv _
      cases hkv
  | list xs =>
    refine ⟨?_, ?_, ?_⟩
    · intro i pk ent h
      simp [ingestTrace, build_entity_checked] at h
    · intro _
      simp [ingestTrace, build_entity_checked, applyCache]
    · intro kvs2 hkv _
      cases hkv

theorem C7_witness :
    applyCache [] (ingestTrace (Value.dict [("deviceid", Value.str "d")])
      ⟨2024, 1, 1, 0, 0, 0, 0⟩ false) = [] :=
  (C7_write_then_cache (Value.dict [("deviceid", Value.str "d")])
    ⟨2024, 1, 1, 0, 0, 0, 0⟩ false []).2.1 rfl

/-- Claim C8 (confirmed): the key deriver is a pure function of the reading
and the ingestion instant — the embedding externalizes the only ambient
input the source reads (the wall clock on line 89), and two calls with
equal readings and equal instants produce identical records. -/
theorem C8_derive_deterministic (d1 d2 : List (String × Value)) (n1 n2 : DT)
    (hd : d1 = d2) (hn : n1 = n2) :
    build_entity d1 n1 = build_entity d2 n2 := by
  rw [hd, hn]

theorem C8_witness :
    build_entity [("MassFlow", Value.int 10)] ⟨2024, 1, 1, 10, 0, 0, 0⟩ =
      build_entity [("MassFlow", Value.int 10)] ⟨2024, 1, 1, 10, 0, 0, 0⟩ :=
  C8_derive_deterministic _ _ _ _ rfl rfl

/-- Claim C9, counterexample: a valid-JSON non-mapping body (here the empty
JSON array) passes the is_json guard, then `data.get` raises inside
build_entity and the generic handler on line 128 returns 500 — not the 400
the claim requires. -/
theorem C9_counterexample :
    ingestStatus (some (Value.list [])) ⟨2024, 1, 1, 0, 0, 0, 0⟩ true = 500 ∧
      (500 : Nat) ≠ 400 := by
  exact ⟨rfl, by decide⟩

/-- Claim C9 (amended): a request whose body is valid JSON but not a
mapping fails inside the key-derivation step, and the generic exception
handler maps it to a 500 response, not 400. -/
theorem C9_nonmapping_500 (v : Value) (now : DT) (w : Bool)
    (h : ∀ kvs, v ≠ Value.dict kvs) :
    ingestStatus (some v) now w = 500 := by
  cases v with
  | dict kvs => exact absurd rfl (h kvs)
  | str s => rfl
  | int n => rfl
  | bool b => rfl
  | null => rfl
  | list xs => rfl

theorem C9_witness :
    ingestStatus (some (Value.list [Value.int 1])) ⟨2025, 1, 1, 0, 0, 0, 0⟩ false = 500 :=
  C9_nonmapping_500 (Value.list [Value.int 1]) ⟨2025, 1, 1, 0, 0, 0, 0⟩ false
    (fun kvs h => Value.noConfusion h)

/-- Claim C10 (confirmed): the scan loop skips a record whose TimestampIST
is absent or the empty string exactly alike, and parses every other
TimestampIST before any range comparison — so one malformed timestamp
anywhere in the partition prevents any successful result for every
requested window, including windows the bad record would fall outside. -/
theorem C10_parse_order_and_empty_skip :
    (∀ (prefix_ : String) (sdt edt : DT) (e : Ent) (rest : List Ent),
      (aget e "TimestampIST" = none ∨ aget e "TimestampIST" = some "") →
      processEntities prefix_ sdt edt (e :: rest) =
        processEntities prefix_ sdt edt rest)
    ∧ (∀ (prefix_ start_ end_ : String) (sdt edt : DT) (entities : List Ent)
        (e : Ent) (ts : String),
      parseDT start_ = some sdt → parseDT end_ = some edt →
      e ∈ entities → aget e "TimestampIST" = some ts → ts ≠ "" →
      parseDT ts = none →
      ∀ rows : List Row, fetch_records prefix_ start_ end_ entities ≠ .ok rows) := by
  constructor
  · intro prefix_ sdt edt e rest h
    rcases h with h | h
    · exact processEntities_cons_none prefix_ sdt edt e rest h
    · exact processEntities_cons_empty prefix_ sdt edt e rest h
  · intro prefix_ start_ end_ sdt edt entities e ts hs he hmem hts hne hbad rows
    rw [fetch_records_eq prefix_ start_ end_ entities sdt edt hs he]
    obtain ⟨s, _, heq⟩ :=
      processEntities_bad prefix_ sdt edt entities e ts hmem hts hne hbad
    rw [heq]
    exact fun hc => Except.noConfusion hc

theorem C10_witness :
    processEntities "B_" ⟨2024, 1, 1, 0, 0, 0, 0⟩ ⟨2024, 1, 1, 1, 0, 0, 0⟩
        [[("x", "1")]] =
      processEntities "B_" ⟨2024, 1, 1, 0, 0, 0, 0⟩ ⟨2024, 1, 1, 1, 0, 0, 0⟩ [] ∧
    fetch_records "B_" "2024-01-01 09:00:00" "2024-01-01 11:00:00"
        [[("TimestampIST", "2099-99-99 99:99:99")]] ≠ .ok [] :=
  ⟨C10_parse_order_and_empty_skip.1 "B_" ⟨2024, 1, 1, 0, 0, 0, 0⟩
      ⟨2024, 1, 1, 1, 0, 0, 0⟩ [("x", "1")] [] (Or.inl rfl),
    C10_parse_order_and_empty_skip.2 "B_" "2024-01-01 09:00:00"
      "2024-01-01 11:00:00" ⟨2024, 1, 1, 9, 0, 0, 0⟩ ⟨2024, 1, 1, 11, 0, 0, 0⟩
      [[("TimestampIST", "2099-99-99 99:99:99")]]
      [("TimestampIST", "2099-99-99 99:99:99")] "2099-99-99 99:99:99"
      rfl rfl (List.mem_singleton.mpr rfl) rfl (by decide) rfl []⟩

end WebScada
